import Mathlib

/-!
Verification development for the "AI Pictionary" party-game server.

The server consists of thin request handlers over a relational store
(rooms, players, rounds, submissions, votes, scores).  We give a shallow
embedding: each table is a list of rows, each handler is a pure function
from a store state (plus the inputs the runtime supplies: current time,
freshly generated ids, the outcome of the external AI call, the draws of
the random number generator) to a new store state and a response.

Timestamps are naturals (milliseconds, as produced by `Date.now()`).
Columns that no handler ever reads or writes (e.g. `created_at`, which is
filled in by a database default) are omitted from the row types.
-/

namespace Game

/-! ## Data model -/

inductive RoomStatus where
  | LOBBY
  | IN_GAME
  | ENDED
deriving DecidableEq, Repr

inductive Phase where
  | PROMPT
  | GENERATING
  | REVEAL
  | VOTING
  | RESULTS
deriving DecidableEq, Repr

structure Room where
  id : Nat
  join_code : String
  status : RoomStatus
  max_players : Nat
  is_family_friendly : Bool
  total_rounds : Option Nat
  round_seconds : Option Nat
  ended_at : Option Nat
deriving DecidableEq, Repr

structure Player where
  id : String
  room_id : Nat
  display_name : String
  is_host : Bool
  is_ready : Bool
  is_active : Bool
deriving DecidableEq, Repr

structure Round where
  id : Nat
  room_id : Nat
  round_number : Nat
  phase : Phase
  prompt_text : String
  phase_ends_at : Option Nat
deriving DecidableEq, Repr

structure Submission where
  id : Nat
  room_id : Nat
  round_id : Nat
  player_id : String
  prompt_input : String
deriving DecidableEq, Repr

structure Vote where
  id : Nat
  room_id : Nat
deriving DecidableEq, Repr

structure Score where
  id : Nat
  room_id : Nat
deriving DecidableEq, Repr

structure DB where
  rooms : List Room
  players : List Player
  rounds : List Round
  submissions : List Submission
  votes : List Vote
  scores : List Score
deriving DecidableEq, Repr

/-- `.from("rooms").select(...).eq("join_code", code).single()` -/
def findRoom (db : DB) (code : String) : Option Room :=
  db.rooms.find? (fun r => r.join_code == code)

/-- `.from("players").select(...).eq("id", pid).eq("room_id", roomId).single()` -/
def findPlayer (db : DB) (pid : String) (roomId : Nat) : Option Player :=
  db.players.find? (fun p => p.id == pid && p.room_id == roomId)

/-- Fold step selecting the row with the larger `round_number` (first wins
ties, matching a stable descending sort with `limit(1)`). -/
def laterPick (best : Option Round) (r : Round) : Option Round :=
  match best with
  | none => some r
  | some b => if b.round_number < r.round_number then some r else some b

/-- `.from("rounds").select(...).eq("room_id", roomId).order("round_number",
descending).limit(1).maybeSingle()`: the round of the room with the highest
round number, if any. -/
def latestRound (rounds : List Round) (roomId : Nat) : Option Round :=
  (rounds.filter (fun r => r.room_id == roomId)).foldl laterPick none

/-! ## src/lib/prompts.ts -/

/-- The static fallback prompt list `PROMPTS`. -/
def PROMPTS : List String :=
  [ "A Renaissance painting of ____ but it\x27s actually ____",
    "A children\x27s book illustration of ____ gone horribly wrong",
    "A movie poster for ____ starring ____",
    "A corporate logo for ____ that accidentally looks like ____",
    "A nature documentary screenshot of ____ in the wild",
    "A medieval tapestry showing ____ and ____",
    "An infomercial still frame selling ____ to ____",
    "A photo of ____ that feels cursed for no reason" ]

/-- `PROMPTS[Math.floor(Math.random() * PROMPTS.length)]`.  The draw of
`Math.random()` is the parameter `r`, a rational in `[0, 1)`.  JavaScript
indexing out of bounds would yield `undefined`; the embedding uses `getD`
with sentinel `""` and we prove the index is always in bounds. -/
def pickRandomPrompt (r : ℚ) : String :=
  PROMPTS.getD (Int.toNat ⌊r * (PROMPTS.length : ℚ)⌋) ""

/-- The prompt-generation step every handler performs:
`try { prompt_text = await generate...() } catch { prompt_text = pickRandomPrompt() }`.
The outcome of the AI call is the `ai` parameter: `Except.error` models a
raised exception. -/
def promptWithFallback (ai : Except String String) (r : ℚ) : String :=
  match ai with
  | Except.ok t => t
  | Except.error _ => pickRandomPrompt r

/-! ## Prompt sanitization (src/lib/ai/promptGenerator.ts and the
`generateFamilyFriendlyPrompt` variant)

JavaScript `\s` is modelled on its ASCII members (space, tab, newline,
carriage return, vertical tab, form feed). -/

/-- Characters matched by `\s` in the sanitizing regexes. -/
def isJsWs (c : Char) : Bool :=
  c == ' ' || c == '\t' || c == '\n' || c == '\r' || c == '\x0b' || c == '\x0c'

/-- Characters matched by `["'\s]` (double quote, single quote, whitespace). -/
def isQW (c : Char) : Bool :=
  c == '"' || c == Char.ofNat 39 || isJsWs c

/-- `.replace(/^["'\s]+|["'\s]+$/g, "")`: drop the maximal leading and
trailing runs of quote/whitespace characters. -/
def stripEnds (l : List Char) : List Char :=
  ((l.dropWhile isQW).reverse.dropWhile isQW).reverse

/-- Scanner for `.replace(/\s+/g, " ")`: the flag records whether the scanner
is inside a whitespace run (whose first character was already replaced by a
single space). -/
def collapseWsAux : Bool → List Char → List Char
  | _, [] => []
  | prevWs, c :: rest =>
    if isJsWs c then
      if prevWs then collapseWsAux true rest
      else ' ' :: collapseWsAux true rest
    else c :: collapseWsAux false rest

/-- `.replace(/\s+/g, " ")`: replace every maximal run of whitespace by a
single space. -/
def collapseWs (l : List Char) : List Char :=
  collapseWsAux false l

/-- `.trim()`: drop leading and trailing whitespace. -/
def trimWs (l : List Char) : List Char :=
  ((l.dropWhile isJsWs).reverse.dropWhile isJsWs).reverse

/-- `.trim()` on a request field (ASCII whitespace model). -/
def jsTrim (s : String) : String :=
  String.mk (trimWs s.data)

/-- `.toUpperCase()` on a request field. -/
def jsToUpper (s : String) : String :=
  String.mk (s.data.map Char.toUpper)

/-- The `sanitize` helper shared (verbatim) by both prompt generators. -/
def sanitize (s : String) : String :=
  String.mk (trimWs (collapseWs (stripEnds s.data)))

/-- Two adjacent characters are never both whitespace. -/
def wsChainRel (a b : Char) : Prop :=
  ¬(isJsWs a = true ∧ isJsWs b = true)

/-- The shape the spec promises of a successfully generated prompt: no
leading or trailing quote/whitespace character, every whitespace character
is a plain space, and no two adjacent whitespace characters (every internal
whitespace run is a single space). -/
def sanitizedShape (s : String) : Prop :=
  (∀ c ∈ s.data, isJsWs c = true → c = ' ')
  ∧ List.Chain' wsChainRel s.data
  ∧ (∀ c, s.data.head? = some c → isQW c = false)
  ∧ (∀ c, s.data.getLast? = some c → isQW c = false)

/-- `generatePrompt` from src/lib/ai/promptGenerator.ts.  The remote call
`client.responses.create(...)` together with `res.output_text ?? ""` is the
parameter `remote`: `Except.error` models a rejected promise. -/
def generatePrompt (remote : Except String String) : Except String String :=
  match remote with
  | Except.error e => Except.error e
  | Except.ok t =>
    let out := sanitize t
    if out = "" then Except.error "Empty prompt" else Except.ok out

/-- `generateFamilyFriendlyPrompt` from the earlier AI wrapper variant:
raises when the sanitized text is empty or shorter than 6 characters. -/
def generateFamilyFriendlyPrompt (remote : Except String String) :
    Except String String :=
  match remote with
  | Except.error e => Except.error e
  | Except.ok t =>
    let prompt := sanitize t
    if prompt = "" ∨ prompt.length < 6 then
      Except.error "AI returned an empty/invalid prompt"
    else Except.ok prompt

/-! ## src/app/api/rounds/advance/route.ts (the conditional-update variant)

The handler is split at its serialization point.  `advanceRead` performs the
reads (room lookup, caller check, latest-round lookup) against a snapshot of
the store and decides which branch the handler takes; `advanceWrite` applies
that branch's writes against the current store — the database evaluates the
`.eq("phase", ...)` guard of the conditional update against the current row,
not against the snapshot the handler read.  A single sequential call is
`advancePOST`; two concurrent callers (both of whose reads see the initial
state, whose writes are serialized by the database) are `advanceTwice`. -/

inductive AdvanceRead where
  | missingParams
  | roomNotFound
  | notInGame
  | playerNotActive
  | noRound
  | promptBranch (roundId : Nat) (seconds : Nat)
  | generatingBranch (roundId : Nat)
  | revealBranch (roundId roomId : Nat) (lastRound : Bool)
  | idleOk
deriving DecidableEq, Repr

def advanceRead (db : DB) (joinCode playerId : String) : AdvanceRead :=
  let code := jsToUpper (jsTrim joinCode)
  let pid := jsTrim playerId
  if code = "" ∨ pid = "" then AdvanceRead.missingParams
  else
    match findRoom db code with
    | none => AdvanceRead.roomNotFound
    | some room =>
      if room.status ≠ RoomStatus.IN_GAME then AdvanceRead.notInGame
      else
        match findPlayer db pid room.id with
        | none => AdvanceRead.playerNotActive
        | some player =>
          if !player.is_active then AdvanceRead.playerNotActive
          else
            match latestRound db.rounds room.id with
            | none => AdvanceRead.noRound
            | some round =>
              match round.phase with
              | Phase.PROMPT =>
                AdvanceRead.promptBranch round.id (room.round_seconds.getD 45)
              | Phase.GENERATING => AdvanceRead.generatingBranch round.id
              | Phase.REVEAL =>
                AdvanceRead.revealBranch round.id room.id
                  (room.total_rounds.getD 3 ≤ round.round_number)
              | _ => AdvanceRead.idleOk

/-- `.from("rounds").update(f).eq("id", rid).eq("phase", expected)`. -/
def setRoundWhere (rounds : List Round) (rid : Nat) (expected : Phase)
    (f : Round → Round) : List Round :=
  rounds.map (fun r => if r.id == rid && r.phase == expected then f r else r)

/-- The row returned by `.select(...).maybeSingle()` after the conditional
update: the (first) row matching both conditions, after mutation. -/
def matchedRound (rounds : List Round) (rid : Nat) (expected : Phase)
    (f : Round → Round) : Option Round :=
  (rounds.find? (fun r => r.id == rid && r.phase == expected)).map f

structure AdvanceOut where
  db : DB
  httpStatus : Nat
  ok : Bool
  updated : Option Round
deriving DecidableEq, Repr

def advanceWrite (db : DB) (now : Nat) (r : AdvanceRead) : AdvanceOut :=
  match r with
  | AdvanceRead.missingParams => ⟨db, 400, false, none⟩
  | AdvanceRead.roomNotFound => ⟨db, 404, false, none⟩
  | AdvanceRead.notInGame => ⟨db, 200, true, none⟩
  | AdvanceRead.playerNotActive => ⟨db, 400, false, none⟩
  | AdvanceRead.noRound => ⟨db, 400, false, none⟩
  | AdvanceRead.promptBranch rid secs =>
    let f : Round → Round := fun r0 =>
      { r0 with phase := Phase.GENERATING, phase_ends_at := some (now + secs * 1000) }
    ⟨{ db with rounds := setRoundWhere db.rounds rid Phase.PROMPT f },
      200, true, matchedRound db.rounds rid Phase.PROMPT f⟩
  | AdvanceRead.generatingBranch rid =>
    let f : Round → Round := fun r0 =>
      { r0 with phase := Phase.REVEAL, phase_ends_at := none }
    ⟨{ db with rounds := setRoundWhere db.rounds rid Phase.GENERATING f },
      200, true, matchedRound db.rounds rid Phase.GENERATING f⟩
  | AdvanceRead.revealBranch rid roomId lastRound =>
    let f : Round → Round := fun r0 =>
      { r0 with phase := Phase.RESULTS, phase_ends_at := none }
    let db1 := { db with rounds := setRoundWhere db.rounds rid Phase.REVEAL f }
    let db2 :=
      if lastRound then
        { db1 with rooms := db1.rooms.map (fun rm : Room =>
            if rm.id == roomId then
              { rm with status := RoomStatus.ENDED, ended_at := some now }
            else rm) }
      else db1
    ⟨db2, 200, true, matchedRound db.rounds rid Phase.REVEAL f⟩
  | AdvanceRead.idleOk => ⟨db, 200, true, none⟩

def advancePOST (db : DB) (now : Nat) (joinCode playerId : String) : AdvanceOut :=
  advanceWrite db now (advanceRead db joinCode playerId)

def advanceTwice (db : DB) (now1 now2 : Nat) (jc1 pid1 jc2 pid2 : String) :
    AdvanceOut × AdvanceOut :=
  let r1 := advanceRead db jc1 pid1
  let r2 := advanceRead db jc2 pid2
  let o1 := advanceWrite db now1 r1
  let o2 := advanceWrite o1.db now2 r2
  (o1, o2)

/-! ## src/app/api/players/ready/route.ts (the variant with the
no-existing-round idempotence check) -/

structure ReadyOut where
  db : DB
  httpStatus : Nat
  ok : Bool
deriving DecidableEq, Repr

/-- `.from("players").update({is_ready: next}).eq("id", pid).eq("room_id",
roomId)`: the players table after the readiness toggle. -/
def toggledPlayers (db : DB) (pid : String) (roomId : Nat) (next : Bool) :
    List Player :=
  db.players.map (fun p : Player =>
    if p.id == pid && p.room_id == roomId then { p with is_ready := next }
    else p)

/-- `.from("players").select(...).eq("room_id", roomId).eq("is_active",
true)`: the active players of the room. -/
def activeOf (players : List Player) (roomId : Nat) : List Player :=
  players.filter (fun p => p.room_id == roomId && p.is_active)

/-- `.from("players").update({is_ready:false}).eq("room_id", roomId)`. -/
def resetReady (players : List Player) (roomId : Nat) : List Player :=
  players.map (fun p : Player =>
    if p.room_id == roomId then { p with is_ready := false } else p)

/-- The exact conditions under which the ready handler auto-starts round 1:
all conjuncts of the handler's guard (positive active count, every active
player ready after the toggle, room still in LOBBY) plus its idempotence
check (no round exists yet). -/
def autoStartFire (db : DB) (pid : String) (room : Room) (next : Bool) : Prop :=
  ((0 < (activeOf (toggledPlayers db pid room.id next) room.id).length
      ∧ (activeOf (toggledPlayers db pid room.id next) room.id).all
          (fun p => p.is_ready) = true)
    ∧ room.status = RoomStatus.LOBBY)
  ∧ latestRound db.rounds room.id = none

def readyPOST (db : DB) (now freshRoundId : Nat)
    (joinCode playerId promptText : String) : ReadyOut :=
  let code := jsToUpper (jsTrim joinCode)
  let pid := jsTrim playerId
  if code = "" ∨ pid = "" then ⟨db, 400, false⟩
  else
    match findRoom db code with
    | none => ⟨db, 404, false⟩
    | some room =>
      if room.status = RoomStatus.ENDED then ⟨db, 400, false⟩
      else
        match findPlayer db pid room.id with
        | none => ⟨db, 404, false⟩
        | some player =>
          if !player.is_active then ⟨db, 400, false⟩
          else
            let db1 := { db with
              players := toggledPlayers db pid room.id (!player.is_ready) }
            let active := activeOf db1.players room.id
            if (0 < active.length ∧ active.all (fun p => p.is_ready))
                ∧ room.status = RoomStatus.LOBBY then
              match latestRound db1.rounds room.id with
              | some _ => ⟨db1, 200, true⟩
              | none =>
                let newRound : Round :=
                  { id := freshRoundId, room_id := room.id, round_number := 1,
                    phase := Phase.PROMPT, prompt_text := promptText,
                    phase_ends_at := some (now + 5000) }
                let db2 := { db1 with rounds := db1.rounds ++ [newRound] }
                let db3 := { db2 with rooms := db2.rooms.map (fun rm : Room =>
                  if rm.id == room.id && rm.status == RoomStatus.LOBBY then
                    { rm with status := RoomStatus.IN_GAME }
                  else rm) }
                let db4 := { db3 with players := resetReady db3.players room.id }
                ⟨db4, 200, true⟩
            else ⟨db1, 200, true⟩

/-! ## src/app/api/rounds/start/route.ts (the variant with the
max-rounds guard) -/

structure StartOut where
  db : DB
  httpStatus : Nat
  round : Option Round
  msg : String
deriving DecidableEq, Repr

/-- `(lastRound?.round_number ?? 0) + 1`. -/
def nextRoundNumber (db : DB) (roomId : Nat) : Nat :=
  (match latestRound db.rounds roomId with
    | none => 0
    | some r => r.round_number) + 1

def startPOST (db : DB) (now freshRoundId : Nat)
    (joinCode playerId promptText : String) : StartOut :=
  let code := jsToUpper (jsTrim joinCode)
  let pid := jsTrim playerId
  if code = "" ∨ pid = "" then ⟨db, 400, none, "Missing joinCode or playerId."⟩
  else
    match findRoom db code with
    | none => ⟨db, 404, none, "Room not found."⟩
    | some room =>
      if room.status = RoomStatus.ENDED then ⟨db, 400, none, "Game has ended."⟩
      else
        if room.total_rounds.getD 3 < nextRoundNumber db room.id then
          ⟨db, 400, none, "Maximum rounds reached. Start a rematch to play again."⟩
        else
          match findPlayer db pid room.id with
          | none => ⟨db, 404, none, "Player not found."⟩
          | some host =>
            if !host.is_active then ⟨db, 400, none, "Player is not active."⟩
            else if !host.is_host then
              ⟨db, 403, none, "Only the host can start a round."⟩
            else
              let newRound : Round :=
                { id := freshRoundId, room_id := room.id,
                  round_number := nextRoundNumber db room.id,
                  phase := Phase.PROMPT, prompt_text := promptText,
                  phase_ends_at := some (now + 5000) }
              let db1 := { db with rounds := db.rounds ++ [newRound] }
              let db2 := { db1 with rooms := db1.rooms.map (fun rm : Room =>
                if rm.id == room.id then { rm with status := RoomStatus.IN_GAME }
                else rm) }
              let db3 := { db2 with players := resetReady db2.players room.id }
              ⟨db3, 200, some newRound, ""⟩

/-! ## src/app/api/rounds/reroll/route.ts -/

structure RerollOut where
  db : DB
  httpStatus : Nat
  round : Option Round
deriving DecidableEq, Repr

def rerollPOST (db : DB) (joinCode playerId newPromptText : String) : RerollOut :=
  let code := jsToUpper (jsTrim joinCode)
  let pid := jsTrim playerId
  if code = "" ∨ pid = "" then ⟨db, 400, none⟩
  else
    match findRoom db code with
    | none => ⟨db, 404, none⟩
    | some room =>
      if room.status = RoomStatus.ENDED then ⟨db, 400, none⟩
      else
        match findPlayer db pid room.id with
        | none => ⟨db, 404, none⟩
        | some host =>
          if !host.is_active then ⟨db, 400, none⟩
          else if !host.is_host then ⟨db, 403, none⟩
          else
            match latestRound db.rounds room.id with
            | none => ⟨db, 400, none⟩
            | some round =>
              if round.phase ≠ Phase.PROMPT then ⟨db, 400, none⟩
              else
                let db1 := { db with rounds := db.rounds.map (fun r =>
                  if r.id == round.id then { r with prompt_text := newPromptText }
                  else r) }
                let upd := (db.rounds.find? (fun r => r.id == round.id)).map
                  (fun r => { r with prompt_text := newPromptText })
                ⟨db1, 200, upd⟩

/-! ## The rematch handler -/

structure RematchOut where
  db : DB
  httpStatus : Nat
  ok : Bool
deriving DecidableEq, Repr

/-- `host?.is_host` of the caller's player row (`false` when the row is
missing, matching `!host?.is_host`). -/
def callerIsHost (db : DB) (pid : String) (roomId : Nat) : Bool :=
  match findPlayer db pid roomId with
  | none => false
  | some h => h.is_host

def rematchPOST (db : DB) (joinCode playerId : String) : RematchOut :=
  let code := jsToUpper (jsTrim joinCode)
  let pid := jsTrim playerId
  if code = "" ∨ pid = "" then ⟨db, 400, false⟩
  else
    match findRoom db code with
    | none => ⟨db, 404, false⟩
    | some room =>
      if !callerIsHost db pid room.id then ⟨db, 403, false⟩
      else
        let db1 := { db with
          votes := db.votes.filter (fun v => !(v.room_id == room.id)),
          submissions := db.submissions.filter (fun s => !(s.room_id == room.id)),
          rounds := db.rounds.filter (fun r => !(r.room_id == room.id)),
          scores := db.scores.filter (fun s => !(s.room_id == room.id)) }
        let db2 := { db1 with rooms := db1.rooms.map (fun rm : Room =>
          if rm.id == room.id then
            { rm with status := RoomStatus.LOBBY, ended_at := none }
          else rm) }
        let db3 := { db2 with players := resetReady db2.players room.id }
        ⟨db3, 200, true⟩

/-! ## src/app/api/rooms/create/route.ts -/

structure CreateOut where
  db : DB
  httpStatus : Nat
  roomId : Option Nat
  joinCode : Option String
  playerId : Option String
  /-- Specification ghost field: the join codes attempted, in order. -/
  tried : List String
deriving DecidableEq, Repr

/-- Whether inserting a room with join code `c` hits the unique index. -/
def hasJoinCode (db : DB) (c : String) : Bool :=
  db.rooms.any (fun r => r.join_code == c)

/-- The `for (let attempt = 0; attempt < 5; attempt++)` retry loop.  `codes`
is the stream of draws of `generateJoinCode(4)` (one fresh draw per
iteration); `hostInsertFails` models a failing host-player insert. -/
def createLoop (db : DB) (displayName : String) (codes : Nat → String)
    (freshRoomId : Nat) (freshPlayerId : String) (hostInsertFails : Bool) :
    Nat → Nat → CreateOut
  | _, 0 => ⟨db, 500, none, none, none, []⟩
  | attempt, fuel + 1 =>
    let c := codes attempt
    if hasJoinCode db c then
      let rest := createLoop db displayName codes freshRoomId freshPlayerId
        hostInsertFails (attempt + 1) fuel
      { rest with tried := c :: rest.tried }
    else
      let room : Room :=
        { id := freshRoomId, join_code := c, status := RoomStatus.LOBBY,
          max_players := 8, is_family_friendly := false,
          total_rounds := none, round_seconds := none, ended_at := none }
      let db1 := { db with rooms := db.rooms ++ [room] }
      if hostInsertFails then ⟨db1, 500, none, none, none, [c]⟩
      else
        let host : Player :=
          { id := freshPlayerId, room_id := freshRoomId,
            display_name := displayName, is_host := true,
            is_ready := false, is_active := true }
        let db2 := { db1 with players := db1.players ++ [host] }
        ⟨db2, 200, some freshRoomId, some c, some freshPlayerId, [c]⟩

def createRoomPOST (db : DB) (name : String) (codes : Nat → String)
    (freshRoomId : Nat) (freshPlayerId : String) (hostInsertFails : Bool) :
    CreateOut :=
  let displayName := jsTrim name
  if displayName = "" then ⟨db, 400, none, none, none, []⟩
  else createLoop db displayName codes freshRoomId freshPlayerId
    hostInsertFails 0 5

/-! ## Concrete sample rows (used by the witnesses) -/

def sampleRoom : Room :=
  { id := 1, join_code := "ABCD", status := RoomStatus.IN_GAME,
    max_players := 8, is_family_friendly := true, total_rounds := some 3,
    round_seconds := none, ended_at := none }

def samplePlayer : Player :=
  { id := "P1", room_id := 1, display_name := "Tyler", is_host := true,
    is_ready := false, is_active := true }

def sampleRound : Round :=
  { id := 10, room_id := 1, round_number := 1, phase := Phase.PROMPT,
    prompt_text := "first prompt", phase_ends_at := some 7000 }

def sampleDB : DB :=
  { rooms := [sampleRoom], players := [samplePlayer], rounds := [sampleRound],
    submissions := [], votes := [], scores := [] }

def sampleRoomLobby : Room :=
  { sampleRoom with status := RoomStatus.LOBBY }

def sampleDBLobby : DB :=
  { rooms := [sampleRoomLobby], players := [samplePlayer], rounds := [],
    submissions := [], votes := [], scores := [] }

def sampleRoundReveal : Round :=
  { sampleRound with
    round_number := 3, phase := Phase.REVEAL, phase_ends_at := none }

def sampleDBReveal : DB :=
  { sampleDB with rounds := [sampleRoundReveal] }

def otherRoom : Room :=
  { id := 2, join_code := "WXYZ", status := RoomStatus.IN_GAME,
    max_players := 8, is_family_friendly := false, total_rounds := none,
    round_seconds := none, ended_at := none }

def otherPlayer : Player :=
  { id := "P9", room_id := 2, display_name := "Sam", is_host := true,
    is_ready := true, is_active := true }

def otherRound : Round :=
  { id := 20, room_id := 2, round_number := 1, phase := Phase.GENERATING,
    prompt_text := "other prompt", phase_ends_at := none }

/-- A store with two rooms' worth of data, to exercise room scoping. -/
def sampleDBMixed : DB :=
  { rooms := [sampleRoom, otherRoom],
    players := [samplePlayer, otherPlayer],
    rounds := [sampleRound, otherRound],
    submissions := [{ id := 1, room_id := 1, round_id := 10,
                      player_id := "P1", prompt_input := "a" },
                    { id := 2, room_id := 2, round_id := 20,
                      player_id := "P9", prompt_input := "b" }],
    votes := [{ id := 1, room_id := 1 }, { id := 2, room_id := 2 }],
    scores := [{ id := 1, room_id := 1 }, { id := 2, room_id := 2 }] }

/-! ## Lemmas about the sanitize pipeline -/

theorem collapseWsAux_cons_ws_true {d : Char} (rest : List Char)
    (h : isJsWs d = true) :
    collapseWsAux true (d :: rest) = collapseWsAux true rest := by
  simp [collapseWsAux, h]

theorem collapseWsAux_cons_ws_false {d : Char} (rest : List Char)
    (h : isJsWs d = true) :
    collapseWsAux false (d :: rest) = ' ' :: collapseWsAux true rest := by
  simp [collapseWsAux, h]

theorem collapseWsAux_cons_not_ws {d : Char} (flag : Bool) (rest : List Char)
    (h : isJsWs d = false) :
    collapseWsAux flag (d :: rest) = d :: collapseWsAux false rest := by
  simp [collapseWsAux, h]

theorem collapseWsAux_ws_space (l : List Char) :
    ∀ (flag : Bool), ∀ c ∈ collapseWsAux flag l, isJsWs c = true → c = ' ' := by
  induction l with
  | nil => intro flag c hc; simp [collapseWsAux] at hc
  | cons d rest ih =>
    intro flag c hc hws
    by_cases hd : isJsWs d = true
    · cases flag with
      | false =>
        rw [collapseWsAux_cons_ws_false rest hd] at hc
        rcases List.mem_cons.mp hc with h | h
        · exact h
        · exact ih true c h hws
      | true =>
        rw [collapseWsAux_cons_ws_true rest hd] at hc
        exact ih true c hc hws
    · have hd' : isJsWs d = false := by simpa using hd
      rw [collapseWsAux_cons_not_ws flag rest hd'] at hc
      rcases List.mem_cons.mp hc with h | h
      · rw [h] at hws; rw [hws] at hd'; cases hd'
      · exact ih false c h hws

theorem collapseWsAux_true_head (l : List Char) :
    ∀ c, (collapseWsAux true l).head? = some c → isJsWs c = false := by
  induction l with
  | nil => intro c hc; simp [collapseWsAux] at hc
  | cons d rest ih =>
    intro c hc
    by_cases hd : isJsWs d = true
    · rw [collapseWsAux_cons_ws_true rest hd] at hc
      exact ih c hc
    · have hd' : isJsWs d = false := by simpa using hd
      rw [collapseWsAux_cons_not_ws true rest hd'] at hc
      simp only [List.head?_cons, Option.some.injEq] at hc
      rw [← hc]; exact hd'

theorem collapseWsAux_chain (l : List Char) :
    ∀ flag, List.Chain' wsChainRel (collapseWsAux flag l) := by
  induction l with
  | nil => intro flag; simp [collapseWsAux]
  | cons d rest ih =>
    intro flag
    by_cases hd : isJsWs d = true
    · cases flag with
      | true => rw [collapseWsAux_cons_ws_true rest hd]; exact ih true
      | false =>
        rw [collapseWsAux_cons_ws_false rest hd, List.chain'_cons']
        refine ⟨?_, ih true⟩
        intro y hy
        have hyws : isJsWs y = false :=
          collapseWsAux_true_head rest y (Option.mem_def.mp hy)
        intro hcon
        rw [hyws] at hcon
        cases hcon.2
    · have hd' : isJsWs d = false := by simpa using hd
      rw [collapseWsAux_cons_not_ws flag rest hd', List.chain'_cons']
      refine ⟨?_, ih false⟩
      intro y _ hcon
      rw [hd'] at hcon
      cases hcon.1

theorem collapseWsAux_getLast (l : List Char) :
    ∀ (flag : Bool) (c : Char), l.getLast? = some c → isJsWs c = false →
      (collapseWsAux flag l).getLast? = some c := by
  induction l with
  | nil => intro flag c hc _; simp at hc
  | cons d rest ih =>
    intro flag c hc hcws
    cases rest with
    | nil =>
      simp only [List.getLast?_singleton, Option.some.injEq] at hc
      rw [← hc] at hcws ⊢
      rw [collapseWsAux_cons_not_ws flag [] hcws]
      rfl
    | cons e t =>
      have hc' : (e :: t).getLast? = some c := by
        rwa [List.getLast?_cons_cons] at hc
      by_cases hd : isJsWs d = true
      · cases flag with
        | true =>
          rw [collapseWsAux_cons_ws_true (e :: t) hd]
          exact ih true c hc' hcws
        | false =>
          rw [collapseWsAux_cons_ws_false (e :: t) hd]
          have htail := ih true c hc' hcws
          have hne : collapseWsAux true (e :: t) ≠ [] := by
            intro h0; rw [h0] at htail; cases htail
          calc (' ' :: collapseWsAux true (e :: t)).getLast?
              = ([' '] ++ collapseWsAux true (e :: t)).getLast? := rfl
            _ = (collapseWsAux true (e :: t)).getLast? :=
                List.getLast?_append_of_ne_nil [' '] hne
            _ = some c := htail
      · have hd' : isJsWs d = false := by simpa using hd
        rw [collapseWsAux_cons_not_ws flag (e :: t) hd']
        have htail := ih false c hc' hcws
        have hne : collapseWsAux false (e :: t) ≠ [] := by
          intro h0; rw [h0] at htail; cases htail
        calc (d :: collapseWsAux false (e :: t)).getLast?
            = ([d] ++ collapseWsAux false (e :: t)).getLast? := rfl
          _ = (collapseWsAux false (e :: t)).getLast? :=
              List.getLast?_append_of_ne_nil [d] hne
          _ = some c := htail

theorem collapseWsAux_head (l : List Char) (c : Char) (hc : l.head? = some c)
    (hws : isJsWs c = false) : (collapseWsAux false l).head? = some c := by
  cases l with
  | nil => cases hc
  | cons d rest =>
    simp only [List.head?_cons, Option.some.injEq] at hc
    rw [← hc] at hws ⊢
    rw [collapseWsAux_cons_not_ws false rest hws]
    rfl

theorem head?_dropWhile_false (p : Char → Bool) (l : List Char) (c : Char)
    (h : (l.dropWhile p).head? = some c) : p c = false := by
  have h2 := List.head?_dropWhile_not p l
  rw [h] at h2
  exact h2

theorem stripEnds_head (l : List Char) (c : Char)
    (h : (stripEnds l).head? = some c) : isQW c = false := by
  unfold stripEnds at h
  obtain ⟨t, ht⟩ := List.dropWhile_suffix (l := (l.dropWhile isQW).reverse) isQW
  have hx : l.dropWhile isQW
      = ((l.dropWhile isQW).reverse.dropWhile isQW).reverse ++ t.reverse := by
    have h2 := congrArg List.reverse ht
    simpa [List.reverse_append] using h2.symm
  have hxne : ((l.dropWhile isQW).reverse.dropWhile isQW).reverse ≠ [] := by
    intro h0; rw [h0] at h; cases h
  have hhead : (l.dropWhile isQW).head? = some c := by
    rw [hx, List.head?_append_of_ne_nil _ hxne, h]
  exact head?_dropWhile_false isQW l c hhead

theorem stripEnds_getLast (l : List Char) (c : Char)
    (h : (stripEnds l).getLast? = some c) : isQW c = false := by
  unfold stripEnds at h
  rw [List.getLast?_reverse] at h
  exact head?_dropWhile_false isQW _ c h

theorem trimWs_eq_self (l : List Char)
    (hhead : ∀ c, l.head? = some c → isJsWs c = false)
    (hlast : ∀ c, l.getLast? = some c → isJsWs c = false) :
    trimWs l = l := by
  have h1 : l.dropWhile isJsWs = l := by
    cases l with
    | nil => rfl
    | cons d rest =>
      exact List.dropWhile_cons_of_neg (by simp [hhead d rfl])
  have h2 : l.reverse.dropWhile isJsWs = l.reverse := by
    cases hrev : l.reverse with
    | nil => rfl
    | cons d rest =>
      have hd : l.getLast? = some d := by
        rw [← List.head?_reverse, hrev]; rfl
      rw [List.dropWhile_cons_of_neg (by simp [hlast d hd])]
  unfold trimWs
  rw [h1, h2, List.reverse_reverse]

theorem not_ws_of_not_qw {c : Char} (h : isQW c = false) : isJsWs c = false := by
  cases hws : isJsWs c with
  | false => rfl
  | true => exact absurd h (by simp [isQW, hws])

theorem sanitize_shape (t : String) (hne : sanitize t ≠ "") :
    sanitizedShape (sanitize t) := by
  cases hx : stripEnds t.data with
  | nil =>
    exfalso
    apply hne
    show String.mk (trimWs (collapseWs (stripEnds t.data))) = ""
    rw [hx]
    rfl
  | cons d rest =>
    have hdhead : (stripEnds t.data).head? = some d := by rw [hx]; rfl
    have hdqw : isQW d = false := stripEnds_head t.data d hdhead
    have hdws : isJsWs d = false := not_ws_of_not_qw hdqw
    have hxne : stripEnds t.data ≠ [] := by rw [hx]; simp
    obtain ⟨e, he⟩ : ∃ e, (stripEnds t.data).getLast? = some e := by
      cases hgl : (stripEnds t.data).getLast? with
      | none => exact absurd (List.getLast?_eq_none_iff.mp hgl) hxne
      | some e => exact ⟨e, rfl⟩
    have heqw : isQW e = false := stripEnds_getLast t.data e he
    have hews : isJsWs e = false := not_ws_of_not_qw heqw
    have hyhead : (collapseWsAux false (stripEnds t.data)).head? = some d :=
      collapseWsAux_head _ d hdhead hdws
    have hylast : (collapseWsAux false (stripEnds t.data)).getLast? = some e :=
      collapseWsAux_getLast _ false e he hews
    have htrim : trimWs (collapseWsAux false (stripEnds t.data))
        = collapseWsAux false (stripEnds t.data) := by
      apply trimWs_eq_self
      · intro c hc
        rw [hyhead] at hc
        injection hc with h2
        rw [← h2]; exact hdws
      · intro c hc
        rw [hylast] at hc
        injection hc with h2
        rw [← h2]; exact hews
    have hdata : (sanitize t).data = collapseWsAux false (stripEnds t.data) := by
      show trimWs (collapseWs (stripEnds t.data)) = _
      rw [collapseWs, htrim]
    refine ⟨?_, ?_, ?_, ?_⟩
    · intro c hc hws
      rw [hdata] at hc
      exact collapseWsAux_ws_space _ false c hc hws
    · rw [hdata]
      exact collapseWsAux_chain _ false
    · intro c hc
      rw [hdata, hyhead] at hc
      injection hc with h2
      rw [← h2]; exact hdqw
    · intro c hc
      rw [hdata, hylast] at hc
      injection hc with h2
      rw [← h2]; exact heqw

/-- Unfolding of `generateFamilyFriendlyPrompt` on a successful remote call. -/
theorem gffp_ok (t : String) :
    generateFamilyFriendlyPrompt (Except.ok t)
      = if sanitize t = "" ∨ (sanitize t).length < 6 then
          Except.error "AI returned an empty/invalid prompt"
        else Except.ok (sanitize t) := rfl

/-! ## Claims C8 and C9 -/

/-- C8: the prompt-generation fallback path never raises: for every draw
`r ∈ [0, 1)` of `Math.random()`, the index `floor(r * PROMPTS.length)` is in
bounds, `pickRandomPrompt` returns a member of the static list `PROMPTS` and
that member is non-empty; the handlers' prompt step (`try` AI `catch`
fallback) returns the AI text on success and the fallback member on any AI
error, so it always produces a prompt string. -/
theorem claim_C8_fallback_total (r : ℚ) (h0 : 0 ≤ r) (h1 : r < 1) :
    Int.toNat ⌊r * (PROMPTS.length : ℚ)⌋ < PROMPTS.length
    ∧ pickRandomPrompt r ∈ PROMPTS
    ∧ pickRandomPrompt r ≠ ""
    ∧ (∀ e, promptWithFallback (Except.error e) r = pickRandomPrompt r)
    ∧ (∀ t, promptWithFallback (Except.ok t) r = t) := by
  have hlen : PROMPTS.length = 8 := rfl
  have hnn : (0:ℚ) ≤ r * (PROMPTS.length : ℚ) := by
    have h8 : (0:ℚ) ≤ (PROMPTS.length : ℚ) := by positivity
    exact mul_nonneg h0 h8
  have hfl0 : 0 ≤ ⌊r * (PROMPTS.length : ℚ)⌋ := Int.floor_nonneg.mpr hnn
  have hmul : r * (PROMPTS.length : ℚ) < 8 := by
    have h8 : (PROMPTS.length : ℚ) = 8 := by norm_num [hlen]
    rw [h8]
    have h9 := mul_lt_mul_of_pos_right h1 (by norm_num : (0:ℚ) < 8)
    linarith
  have hflU : ⌊r * (PROMPTS.length : ℚ)⌋ < (8:ℤ) := by
    apply Int.floor_lt.mpr
    push_cast
    exact hmul
  have hidx : Int.toNat ⌊r * (PROMPTS.length : ℚ)⌋ < PROMPTS.length := by
    omega
  have hmem : pickRandomPrompt r ∈ PROMPTS := by
    unfold pickRandomPrompt
    rw [List.getD_eq_getElem PROMPTS "" hidx]
    exact List.getElem_mem hidx
  refine ⟨hidx, hmem, ?_, fun e => rfl, fun t => rfl⟩
  have hall : ∀ x ∈ PROMPTS, x ≠ "" := by decide
  exact hall _ hmem

/-- Witness for C8 at the concrete draw `r = 1/2`. -/
theorem claim_C8_witness :
    (0:ℚ) ≤ 1/2 ∧ (1/2:ℚ) < 1
    ∧ pickRandomPrompt (1/2) ∈ PROMPTS ∧ pickRandomPrompt (1/2) ≠ "" := by
  have h := claim_C8_fallback_total (1/2) (by norm_num) (by norm_num)
  exact ⟨by norm_num, by norm_num, h.2.1, h.2.2.1⟩

/-- C9: each AI prompt generator raises exactly when the remote call errors
or the remote text is empty (resp. shorter than 6 characters, for the
family-friendly variant) after sanitization; on success the result is the
sanitized remote text, which has no leading or trailing quote or whitespace
character and every internal whitespace run collapsed to a single space. -/
theorem claim_C9_generator_contract (remote : Except String String)
    (s t0 : String) :
    (generatePrompt remote = Except.ok s ↔
      ∃ t, remote = Except.ok t ∧ sanitize t ≠ "" ∧ s = sanitize t)
    ∧ (generateFamilyFriendlyPrompt remote = Except.ok s ↔
      ∃ t, remote = Except.ok t
        ∧ ¬(sanitize t = "" ∨ (sanitize t).length < 6) ∧ s = sanitize t)
    ∧ (sanitize t0 ≠ "" → sanitizedShape (sanitize t0)) := by
  refine ⟨?_, ?_, sanitize_shape t0⟩
  · constructor
    · intro h
      cases remote with
      | error e => simp [generatePrompt] at h
      | ok t =>
        by_cases hz : sanitize t = ""
        · simp [generatePrompt, hz] at h
        · simp only [generatePrompt, hz, if_false, Except.ok.injEq] at h
          exact ⟨t, rfl, hz, h.symm⟩
    · rintro ⟨t, rfl, hz, rfl⟩
      simp [generatePrompt, hz]
  · constructor
    · intro h
      cases remote with
      | error e => simp [generateFamilyFriendlyPrompt] at h
      | ok t =>
        by_cases hz : sanitize t = "" ∨ (sanitize t).length < 6
        · rw [gffp_ok, if_pos hz] at h
          cases h
        · rw [gffp_ok, if_neg hz] at h
          injection h with h2
          exact ⟨t, rfl, hz, h2.symm⟩
    · rintro ⟨t, rfl, hz, rfl⟩
      rw [gffp_ok, if_neg hz]

/-- Witness for C9 at a concrete remote text. -/
theorem claim_C9_witness :
    generatePrompt (Except.ok " \x22hello   world\x22 ") = Except.ok "hello world"
    ∧ sanitizedShape "hello world" := by
  have h := claim_C9_generator_contract
    (Except.ok " \x22hello   world\x22 ") "hello world" " \x22hello   world\x22 "
  have h1 : sanitize " \x22hello   world\x22 " = "hello world" := by decide
  refine ⟨h.1.mpr ⟨_, rfl, ?_, h1.symm⟩, ?_⟩
  · rw [h1]; decide
  · have h3 := h.2.2 (by rw [h1]; decide)
    rwa [h1] at h3

/-! ## Lemmas about the store helpers -/

theorem foldl_laterPick_mem :
    ∀ (l : List Round) (acc : Option Round) (x : Round),
      l.foldl laterPick acc = some x → acc = some x ∨ x ∈ l := by
  intro l
  induction l with
  | nil => intro acc x h; exact Or.inl h
  | cons r t ih =>
    intro acc x h
    rcases ih (laterPick acc r) x h with hacc | hmem
    · cases acc with
      | none =>
        injection hacc with h2
        right; rw [← h2]; exact List.mem_cons_self r t
      | some b =>
        by_cases hlt : b.round_number < r.round_number
        · rw [show laterPick (some b) r = some r from by simp [laterPick, hlt]] at hacc
          injection hacc with h2
          right; rw [← h2]; exact List.mem_cons_self r t
        · rw [show laterPick (some b) r = some b from by simp [laterPick, hlt]] at hacc
          exact Or.inl hacc
    · right; exact List.mem_cons_of_mem r hmem

theorem latestRound_mem {rounds : List Round} {roomId : Nat} {rd : Round}
    (h : latestRound rounds roomId = some rd) :
    rd ∈ rounds ∧ rd.room_id = roomId := by
  unfold latestRound at h
  rcases foldl_laterPick_mem _ none rd h with h0 | hmem
  · cases h0
  · have h2 := List.mem_filter.mp hmem
    exact ⟨h2.1, by simpa using h2.2⟩

theorem round_eq_of_id {rounds : List Round}
    (hnd : (rounds.map Round.id).Nodup) {r s : Round}
    (hr : r ∈ rounds) (hs : s ∈ rounds) (hid : r.id = s.id) : r = s :=
  List.inj_on_of_nodup_map hnd hr hs hid

theorem find_round_by_id_phase {rounds : List Round} {rd : Round}
    (expected : Phase) (hnd : (rounds.map Round.id).Nodup)
    (hmem : rd ∈ rounds) (hph : rd.phase = expected) :
    rounds.find? (fun r => r.id == rd.id && r.phase == expected) = some rd := by
  have hsome : (rounds.find? (fun r => r.id == rd.id && r.phase == expected)).isSome :=
    List.find?_isSome.mpr ⟨rd, hmem, by simp [hph]⟩
  obtain ⟨x, hx⟩ := Option.isSome_iff_exists.mp hsome
  have hxmem := List.mem_of_find?_eq_some hx
  have hxp := List.find?_some hx
  simp only [Bool.and_eq_true, beq_iff_eq] at hxp
  rw [hx, round_eq_of_id hnd hxmem hmem hxp.1]

theorem find_round_by_id {rounds : List Round} {rd : Round}
    (hnd : (rounds.map Round.id).Nodup) (hmem : rd ∈ rounds) :
    rounds.find? (fun r => r.id == rd.id) = some rd := by
  have hsome : (rounds.find? (fun r => r.id == rd.id)).isSome :=
    List.find?_isSome.mpr ⟨rd, hmem, by simp⟩
  obtain ⟨x, hx⟩ := Option.isSome_iff_exists.mp hsome
  have hxmem := List.mem_of_find?_eq_some hx
  have hxp := List.find?_some hx
  simp only [beq_iff_eq] at hxp
  rw [hx, round_eq_of_id hnd hxmem hmem hxp]

theorem setRoundWhere_eq_map {rounds : List Round} {rd : Round}
    {expected : Phase} (f : Round → Round)
    (hnd : (rounds.map Round.id).Nodup) (hmem : rd ∈ rounds)
    (hph : rd.phase = expected) :
    setRoundWhere rounds rd.id expected f
      = rounds.map (fun r => if r = rd then f rd else r) := by
  unfold setRoundWhere
  apply List.map_congr_left
  intro a ha
  by_cases hard : a = rd
  · rw [hard]; simp [hph]
  · have hguard : ¬((a.id == rd.id && a.phase == expected) = true) := by
      intro hcon
      simp only [Bool.and_eq_true, beq_iff_eq] at hcon
      exact hard (round_eq_of_id hnd ha hmem hcon.1)
    rw [if_neg hguard, if_neg hard]

theorem setRoundWhere_noop {rounds : List Round} {rid : Nat}
    {expected : Phase} (f : Round → Round)
    (h : ∀ r ∈ rounds, ¬(r.id = rid ∧ r.phase = expected)) :
    setRoundWhere rounds rid expected f = rounds := by
  unfold setRoundWhere
  have h2 : rounds.map (fun r =>
      if r.id == rid && r.phase == expected then f r else r) = rounds.map id := by
    apply List.map_congr_left
    intro a ha
    have hguard : ¬((a.id == rid && a.phase == expected) = true) := by
      intro hcon
      simp only [Bool.and_eq_true, beq_iff_eq] at hcon
      exact h a ha hcon
    rw [if_neg hguard]; rfl
  rw [h2, List.map_id]

theorem matchedRound_noop {rounds : List Round} {rid : Nat}
    {expected : Phase} (f : Round → Round)
    (h : ∀ r ∈ rounds, ¬(r.id = rid ∧ r.phase = expected)) :
    matchedRound rounds rid expected f = none := by
  unfold matchedRound
  rw [List.find?_eq_none.mpr]
  · rfl
  · intro x hx hcon
    simp only [Bool.and_eq_true, beq_iff_eq] at hcon
    exact h x hx hcon

/-- Reduction of `advanceRead` when the latest round is in PROMPT phase and
the caller is a valid active player of an in-game room. -/
theorem advanceRead_prompt (db : DB) (jc pid : String) (room : Room)
    (p : Player) (rd : Round)
    (hjc : jsToUpper (jsTrim jc) = jc) (hjcne : jc ≠ "")
    (hpid : jsTrim pid = pid) (hpidne : pid ≠ "")
    (hroom : findRoom db jc = some room)
    (hstat : room.status = RoomStatus.IN_GAME)
    (hfind : findPlayer db pid room.id = some p) (hact : p.is_active = true)
    (hlr : latestRound db.rounds room.id = some rd)
    (hph : rd.phase = Phase.PROMPT) :
    advanceRead db jc pid
      = AdvanceRead.promptBranch rd.id (room.round_seconds.getD 45) := by
  simp only [advanceRead, hjc, hpid, hroom, hstat, hfind, hact, hlr, hph]
  simp [hjcne, hpidne]

/-- Reduction of `advanceRead` when the latest round is in REVEAL phase. -/
theorem advanceRead_reveal (db : DB) (jc pid : String) (room : Room)
    (p : Player) (rd : Round)
    (hjc : jsToUpper (jsTrim jc) = jc) (hjcne : jc ≠ "")
    (hpid : jsTrim pid = pid) (hpidne : pid ≠ "")
    (hroom : findRoom db jc = some room)
    (hstat : room.status = RoomStatus.IN_GAME)
    (hfind : findPlayer db pid room.id = some p) (hact : p.is_active = true)
    (hlr : latestRound db.rounds room.id = some rd)
    (hph : rd.phase = Phase.REVEAL) :
    advanceRead db jc pid
      = AdvanceRead.revealBranch rd.id room.id
          (room.total_rounds.getD 3 ≤ rd.round_number) := by
  simp only [advanceRead, hjc, hpid, hroom, hstat, hfind, hact, hlr, hph]
  simp [hjcne, hpidne]

/-! ## Claim C1 -/

/-- C1: for a room whose latest round is in PROMPT phase, two concurrent
advance calls (both reads see the initial state, writes serialized) produce
exactly one successful row mutation and one no-op: the first caller's
conditional update returns the round moved to GENERATING with
`phase_ends_at = now + round_seconds` (default 45 s) and rewrites only that
row; the second caller's conditional update matches no row, returns `null`,
and changes nothing. -/
theorem claim_C1_prompt_advance_concurrent
    (db : DB) (now1 now2 : Nat) (jc pid1 pid2 : String)
    (room : Room) (p1 p2 : Player) (rd : Round)
    (hjc : jsToUpper (jsTrim jc) = jc) (hjcne : jc ≠ "")
    (hp1 : jsTrim pid1 = pid1) (hp1ne : pid1 ≠ "")
    (hp2 : jsTrim pid2 = pid2) (hp2ne : pid2 ≠ "")
    (hroom : findRoom db jc = some room)
    (hstat : room.status = RoomStatus.IN_GAME)
    (hfind1 : findPlayer db pid1 room.id = some p1) (hact1 : p1.is_active = true)
    (hfind2 : findPlayer db pid2 room.id = some p2) (hact2 : p2.is_active = true)
    (hlr : latestRound db.rounds room.id = some rd)
    (hph : rd.phase = Phase.PROMPT)
    (hnd : (db.rounds.map Round.id).Nodup) :
    (advanceTwice db now1 now2 jc pid1 jc pid2).1.updated
      = some { rd with
          phase := Phase.GENERATING,
          phase_ends_at := some (now1 + room.round_seconds.getD 45 * 1000) }
    ∧ (advanceTwice db now1 now2 jc pid1 jc pid2).1.db.rounds
      = db.rounds.map (fun r =>
          if r = rd then
            { rd with
              phase := Phase.GENERATING,
              phase_ends_at := some (now1 + room.round_seconds.getD 45 * 1000) }
          else r)
    ∧ { rd with
          phase := Phase.GENERATING,
          phase_ends_at := some (now1 + room.round_seconds.getD 45 * 1000) }
        ∈ (advanceTwice db now1 now2 jc pid1 jc pid2).2.db.rounds
    ∧ (advanceTwice db now1 now2 jc pid1 jc pid2).2.updated = none
    ∧ (advanceTwice db now1 now2 jc pid1 jc pid2).2.db
        = (advanceTwice db now1 now2 jc pid1 jc pid2).1.db := by
  have hmem : rd ∈ db.rounds := (latestRound_mem hlr).1
  have hred1 := advanceRead_prompt db jc pid1 room p1 rd hjc hjcne hp1 hp1ne
    hroom hstat hfind1 hact1 hlr hph
  have hred2 := advanceRead_prompt db jc pid2 room p2 rd hjc hjcne hp2 hp2ne
    hroom hstat hfind2 hact2 hlr hph
  have hset1 : setRoundWhere db.rounds rd.id Phase.PROMPT
      (fun r0 => { r0 with
        phase := Phase.GENERATING,
        phase_ends_at := some (now1 + room.round_seconds.getD 45 * 1000) })
      = db.rounds.map (fun r =>
          if r = rd then
            { rd with
              phase := Phase.GENERATING,
              phase_ends_at := some (now1 + room.round_seconds.getD 45 * 1000) }
          else r) := by
    rw [setRoundWhere_eq_map _ hnd hmem hph]
  have hnomatch : ∀ x ∈ db.rounds.map (fun r =>
      if r = rd then
        { rd with
          phase := Phase.GENERATING,
          phase_ends_at := some (now1 + room.round_seconds.getD 45 * 1000) }
      else r), ¬(x.id = rd.id ∧ x.phase = Phase.PROMPT) := by
    intro x hx hcon
    obtain ⟨a, ha, hax⟩ := List.mem_map.mp hx
    by_cases har : a = rd
    · rw [har, if_pos rfl] at hax
      rw [← hax] at hcon
      exact Phase.noConfusion hcon.2
    · rw [if_neg har] at hax
      rw [← hax] at hcon
      exact har (round_eq_of_id hnd ha hmem hcon.1)
  refine ⟨?_, ?_, ?_, ?_, ?_⟩
  · show (advanceWrite db now1 (advanceRead db jc pid1)).updated = _
    rw [hred1]
    simp only [advanceWrite]
    unfold matchedRound
    rw [find_round_by_id_phase Phase.PROMPT hnd hmem hph]
    rfl
  · show (advanceWrite db now1 (advanceRead db jc pid1)).db.rounds = _
    rw [hred1]
    simp only [advanceWrite]
    exact hset1
  · show _ ∈ (advanceWrite (advanceWrite db now1 (advanceRead db jc pid1)).db
      now2 (advanceRead db jc pid2)).db.rounds
    rw [hred1, hred2]
    simp only [advanceWrite]
    rw [hset1, setRoundWhere_noop _ hnomatch]
    exact List.mem_map.mpr ⟨rd, hmem, by rw [if_pos rfl]⟩
  · show (advanceWrite (advanceWrite db now1 (advanceRead db jc pid1)).db
      now2 (advanceRead db jc pid2)).updated = none
    rw [hred1, hred2]
    simp only [advanceWrite]
    rw [hset1]
    exact matchedRound_noop _ hnomatch
  · show (advanceWrite (advanceWrite db now1 (advanceRead db jc pid1)).db
        now2 (advanceRead db jc pid2)).db
      = (advanceWrite db now1 (advanceRead db jc pid1)).db
    rw [hred1, hred2]
    simp only [advanceWrite]
    rw [hset1, setRoundWhere_noop _ hnomatch]

/-- Witness for C1 on a concrete store: one in-game room with unset
`round_seconds`, one active player, one PROMPT round. -/
theorem claim_C1_witness :
    sampleRound.phase = Phase.PROMPT
    ∧ (advanceTwice sampleDB 1000 2000 "ABCD" "P1" "ABCD" "P1").1.updated
      = some { sampleRound with
          phase := Phase.GENERATING,
          phase_ends_at := some (1000 + 45 * 1000) }
    ∧ (advanceTwice sampleDB 1000 2000 "ABCD" "P1" "ABCD" "P1").2.updated = none
    ∧ (advanceTwice sampleDB 1000 2000 "ABCD" "P1" "ABCD" "P1").2.db
      = (advanceTwice sampleDB 1000 2000 "ABCD" "P1" "ABCD" "P1").1.db := by
  have h := claim_C1_prompt_advance_concurrent sampleDB 1000 2000 "ABCD" "P1"
    "P1" sampleRoom samplePlayer samplePlayer sampleRound
    (by decide) (by decide) (by decide) (by decide) (by decide) (by decide)
    (by decide) (by decide) (by decide) (by decide) (by decide) (by decide)
    (by decide) (by decide) (by decide)
  exact ⟨by decide, h.1, h.2.2.2.1, h.2.2.2.2⟩

/-! ## Claim C2 -/

/-- Mapping over rooms with a `==` id guard equals mapping with an `=` id
guard. -/
theorem map_room_guard_eq (l : List Room) (i : Nat) (u : Room → Room) :
    l.map (fun rm => if rm.id == i then u rm else rm)
      = l.map (fun rm => if rm.id = i then u rm else rm) := by
  apply List.map_congr_left
  intro a _
  by_cases h : a.id = i
  · rw [if_pos (by simpa using h), if_pos h]
  · rw [if_neg (by simpa using h), if_neg h]

/-- C2: advancing a room in status IN_GAME whose latest round is in REVEAL
phase sets that round's phase to RESULTS and clears `phase_ends_at`; exactly
when the round number reaches `total_rounds` (default 3) the room is set to
ENDED with `ended_at = now`; below the final round the rooms table is
untouched, so the room stays IN_GAME. -/
theorem claim_C2_reveal_to_results
    (db : DB) (now : Nat) (jc pid : String)
    (room : Room) (p : Player) (rd : Round)
    (hjc : jsToUpper (jsTrim jc) = jc) (hjcne : jc ≠ "")
    (hpid : jsTrim pid = pid) (hpidne : pid ≠ "")
    (hroom : findRoom db jc = some room)
    (hstat : room.status = RoomStatus.IN_GAME)
    (hfind : findPlayer db pid room.id = some p) (hact : p.is_active = true)
    (hlr : latestRound db.rounds room.id = some rd)
    (hph : rd.phase = Phase.REVEAL)
    (hnd : (db.rounds.map Round.id).Nodup) :
    (advancePOST db now jc pid).updated
      = some { rd with phase := Phase.RESULTS, phase_ends_at := none }
    ∧ (advancePOST db now jc pid).db.rounds
      = db.rounds.map (fun r =>
          if r = rd then { rd with phase := Phase.RESULTS, phase_ends_at := none }
          else r)
    ∧ (room.total_rounds.getD 3 ≤ rd.round_number →
        (advancePOST db now jc pid).db.rooms
          = db.rooms.map (fun rm =>
              if rm.id = room.id then
                { rm with status := RoomStatus.ENDED, ended_at := some now }
              else rm)
        ∧ { room with status := RoomStatus.ENDED, ended_at := some now }
            ∈ (advancePOST db now jc pid).db.rooms)
    ∧ (rd.round_number < room.total_rounds.getD 3 →
        (advancePOST db now jc pid).db.rooms = db.rooms
        ∧ room ∈ (advancePOST db now jc pid).db.rooms
        ∧ room.status = RoomStatus.IN_GAME) := by
  have hmem : rd ∈ db.rounds := (latestRound_mem hlr).1
  have hroomMem : room ∈ db.rooms := by
    unfold findRoom at hroom
    exact List.mem_of_find?_eq_some hroom
  have hred := advanceRead_reveal db jc pid room p rd hjc hjcne hpid hpidne
    hroom hstat hfind hact hlr hph
  refine ⟨?_, ?_, ?_, ?_⟩
  · show (advanceWrite db now (advanceRead db jc pid)).updated = _
    rw [hred]
    simp only [advanceWrite]
    unfold matchedRound
    rw [find_round_by_id_phase Phase.REVEAL hnd hmem hph]
    rfl
  · show (advanceWrite db now (advanceRead db jc pid)).db.rounds = _
    rw [hred]
    simp only [advanceWrite]
    by_cases hlast : room.total_rounds.getD 3 ≤ rd.round_number
    · simp only [hlast, decide_True, if_true]
      rw [setRoundWhere_eq_map _ hnd hmem hph]
    · simp only [hlast, decide_False, Bool.false_eq_true, if_false]
      rw [setRoundWhere_eq_map _ hnd hmem hph]
  · intro hlast
    show (advanceWrite db now (advanceRead db jc pid)).db.rooms
        = _ ∧ _ ∈ (advanceWrite db now (advanceRead db jc pid)).db.rooms
    rw [hred]
    simp only [advanceWrite, hlast, decide_True, if_true]
    constructor
    · exact map_room_guard_eq db.rooms room.id _
    · refine List.mem_map.mpr ⟨room, hroomMem, ?_⟩
      rw [if_pos (by simp)]
  · intro hlt
    have hlast : ¬(room.total_rounds.getD 3 ≤ rd.round_number) := by omega
    refine ⟨?_, ?_, hstat⟩
    · show (advanceWrite db now (advanceRead db jc pid)).db.rooms = _
      rw [hred]
      simp only [advanceWrite, hlast, decide_False, Bool.false_eq_true, if_false]
    · show _ ∈ (advanceWrite db now (advanceRead db jc pid)).db.rooms
      rw [hred]
      simp only [advanceWrite, hlast, decide_False, Bool.false_eq_true, if_false]
      exact hroomMem

/-- Witness for C2 on a concrete store whose REVEAL round is the final
round (`round_number = 3 = total_rounds`): the room ends. -/
theorem claim_C2_witness :
    sampleRoundReveal.phase = Phase.REVEAL
    ∧ (advancePOST sampleDBReveal 5000 "ABCD" "P1").updated
      = some { sampleRoundReveal with
          phase := Phase.RESULTS, phase_ends_at := none }
    ∧ { sampleRoom with status := RoomStatus.ENDED, ended_at := some 5000 }
        ∈ (advancePOST sampleDBReveal 5000 "ABCD" "P1").db.rooms := by
  have h := claim_C2_reveal_to_results sampleDBReveal 5000 "ABCD" "P1"
    sampleRoom samplePlayer sampleRoundReveal
    (by decide) (by decide) (by decide) (by decide) (by decide) (by decide)
    (by decide) (by decide) (by decide) (by decide) (by decide)
  exact ⟨by decide, h.1, (h.2.2.1 (by decide)).2⟩

/-! ## Claim C3 -/

/-- C3: for a ready-toggle call by an active player of a non-ended room,
round 1 is auto-created (in PROMPT phase, with the room moved to IN_GAME)
exactly when the room is in LOBBY, the active-player count is positive,
every active player is ready after the toggle, and no round exists yet for
the room; in every other case the only change is the caller's toggled
readiness flag. -/
theorem claim_C3_ready_autostart
    (db : DB) (now freshRoundId : Nat) (jc pid promptText : String)
    (room : Room) (player : Player)
    (hjc : jsToUpper (jsTrim jc) = jc) (hjcne : jc ≠ "")
    (hpid : jsTrim pid = pid) (hpidne : pid ≠ "")
    (hroom : findRoom db jc = some room)
    (hnotEnded : room.status ≠ RoomStatus.ENDED)
    (hfind : findPlayer db pid room.id = some player)
    (hact : player.is_active = true) :
    (autoStartFire db pid room (!player.is_ready) →
      (readyPOST db now freshRoundId jc pid promptText).db.rounds
        = db.rounds ++ [{ id := freshRoundId, room_id := room.id,
                           round_number := 1, phase := Phase.PROMPT,
                           prompt_text := promptText,
                           phase_ends_at := some (now + 5000) }]
      ∧ { room with status := RoomStatus.IN_GAME }
          ∈ (readyPOST db now freshRoundId jc pid promptText).db.rooms)
    ∧ (¬autoStartFire db pid room (!player.is_ready) →
      (readyPOST db now freshRoundId jc pid promptText).db
        = { db with
            players := toggledPlayers db pid room.id (!player.is_ready) }) := by
  have hroomMem : room ∈ db.rooms := by
    unfold findRoom at hroom
    exact List.mem_of_find?_eq_some hroom
  constructor
  · rintro ⟨⟨hcnt, hLobby⟩, hnoround⟩
    constructor
    · simp [readyPOST, hjc, hpid, hjcne, hpidne, hroom, hfind, hact,
        hLobby, hnoround, hcnt.1, hcnt.2]
    · simp only [readyPOST, hjc, hpid]
      rw [if_neg (by simp [hjcne, hpidne])]
      simp only [hroom, hLobby]
      rw [if_neg (by simp)]
      simp only [hfind, hact, Bool.not_true, Bool.false_eq_true, if_false,
        hnoround, hcnt.1, hcnt.2, and_self, if_true]
      refine List.mem_map.mpr ⟨room, hroomMem, ?_⟩
      rw [if_pos (by simp [hLobby])]
  · intro hnf
    unfold autoStartFire at hnf
    by_cases hcond : (0 < (activeOf (toggledPlayers db pid room.id
          (!player.is_ready)) room.id).length
        ∧ (activeOf (toggledPlayers db pid room.id
          (!player.is_ready)) room.id).all (fun p => p.is_ready) = true)
      ∧ room.status = RoomStatus.LOBBY
    · cases hlr2 : latestRound db.rounds room.id with
      | none => exact absurd ⟨hcond, hlr2⟩ hnf
      | some rr =>
        simp [readyPOST, hjc, hpid, hjcne, hpidne, hroom, hfind, hact,
          hcond.1.1, hcond.1.2, hcond.2, hlr2]
    · simp only [readyPOST, hjc, hpid]
      rw [if_neg (by simp [hjcne, hpidne])]
      simp only [hroom]
      rw [if_neg hnotEnded]
      simp only [hfind, hact, Bool.not_true, Bool.false_eq_true, if_false]
      rw [if_neg hcond]

/-- Witness for C3 on a concrete lobby store: one active non-ready player,
no rounds; the toggle makes everyone ready, so round 1 is created and the
room moves to IN_GAME. -/
theorem claim_C3_witness :
    autoStartFire sampleDBLobby "P1" sampleRoomLobby true
    ∧ (readyPOST sampleDBLobby 1000 77 "ABCD" "P1" "draw a fish").db.rounds
      = sampleDBLobby.rounds ++ [{ id := 77, room_id := 1, round_number := 1,
                                    phase := Phase.PROMPT,
                                    prompt_text := "draw a fish",
                                    phase_ends_at := some (1000 + 5000) }]
    ∧ { sampleRoomLobby with status := RoomStatus.IN_GAME }
        ∈ (readyPOST sampleDBLobby 1000 77 "ABCD" "P1" "draw a fish").db.rooms := by
  have h := claim_C3_ready_autostart sampleDBLobby 1000 77 "ABCD" "P1"
    "draw a fish" sampleRoomLobby samplePlayer
    (by decide) (by decide) (by decide) (by decide) (by decide) (by decide)
    (by decide) (by decide)
  have hfire : autoStartFire sampleDBLobby "P1" sampleRoomLobby
      (!samplePlayer.is_ready) := by
    unfold autoStartFire
    decide
  exact ⟨hfire, (h.1 hfire).1, (h.1 hfire).2⟩

/-! ## Claim C4 -/

/-- C4: a start-round call by the active host of a non-ended room is
rejected with 400 ("Maximum rounds reached") and creates nothing when the
next round number (highest existing plus one, or 1) exceeds `total_rounds`
(default 3); otherwise it creates exactly that round in PROMPT phase and
sets the room to IN_GAME. -/
theorem claim_C4_start_round_guard
    (db : DB) (now freshRoundId : Nat) (jc pid promptText : String)
    (room : Room) (host : Player)
    (hjc : jsToUpper (jsTrim jc) = jc) (hjcne : jc ≠ "")
    (hpid : jsTrim pid = pid) (hpidne : pid ≠ "")
    (hroom : findRoom db jc = some room)
    (hnotEnded : room.status ≠ RoomStatus.ENDED)
    (hfind : findPlayer db pid room.id = some host)
    (hact : host.is_active = true) (hhost : host.is_host = true) :
    (room.total_rounds.getD 3 < nextRoundNumber db room.id →
      (startPOST db now freshRoundId jc pid promptText).httpStatus = 400
      ∧ (startPOST db now freshRoundId jc pid promptText).msg
        = "Maximum rounds reached. Start a rematch to play again."
      ∧ (startPOST db now freshRoundId jc pid promptText).db = db
      ∧ (startPOST db now freshRoundId jc pid promptText).round = none)
    ∧ (nextRoundNumber db room.id ≤ room.total_rounds.getD 3 →
      (startPOST db now freshRoundId jc pid promptText).round
        = some { id := freshRoundId, room_id := room.id,
                 round_number := nextRoundNumber db room.id,
                 phase := Phase.PROMPT, prompt_text := promptText,
                 phase_ends_at := some (now + 5000) }
      ∧ (startPOST db now freshRoundId jc pid promptText).db.rounds
        = db.rounds ++ [{ id := freshRoundId, room_id := room.id,
                          round_number := nextRoundNumber db room.id,
                          phase := Phase.PROMPT, prompt_text := promptText,
                          phase_ends_at := some (now + 5000) }]
      ∧ { room with status := RoomStatus.IN_GAME }
          ∈ (startPOST db now freshRoundId jc pid promptText).db.rooms) := by
  have hroomMem : room ∈ db.rooms := by
    unfold findRoom at hroom
    exact List.mem_of_find?_eq_some hroom
  constructor
  · intro hmax
    simp [startPOST, hjc, hpid, hjcne, hpidne, hroom, hnotEnded, hmax]
  · intro hle
    have hmax : ¬(room.total_rounds.getD 3 < nextRoundNumber db room.id) := by
      omega
    refine ⟨?_, ?_, ?_⟩
    · simp [startPOST, hjc, hpid, hjcne, hpidne, hroom, hnotEnded, hmax,
        hfind, hact, hhost]
    · simp [startPOST, hjc, hpid, hjcne, hpidne, hroom, hnotEnded, hmax,
        hfind, hact, hhost]
    · simp only [startPOST, hjc, hpid]
      rw [if_neg (by simp [hjcne, hpidne])]
      simp only [hroom]
      rw [if_neg hnotEnded, if_neg hmax]
      simp only [hfind, hact, hhost, Bool.not_true, Bool.false_eq_true,
        if_false]
      refine List.mem_map.mpr ⟨room, hroomMem, ?_⟩
      rw [if_pos (by simp)]

/-- Witness for C4 on a concrete store in which round 3 of 3 already
exists: the next round number is 4 and the handler refuses with 400,
leaving the store unchanged. -/
theorem claim_C4_witness :
    sampleRoom.total_rounds.getD 3 < nextRoundNumber sampleDBReveal 1
    ∧ (startPOST sampleDBReveal 9000 88 "ABCD" "P1" "draw a dog").httpStatus
      = 400
    ∧ (startPOST sampleDBReveal 9000 88 "ABCD" "P1" "draw a dog").db
      = sampleDBReveal
    ∧ (startPOST sampleDBReveal 9000 88 "ABCD" "P1" "draw a dog").round
      = none := by
  have h := claim_C4_start_round_guard sampleDBReveal 9000 88 "ABCD" "P1"
    "draw a dog" sampleRoom samplePlayer
    (by decide) (by decide) (by decide) (by decide) (by decide) (by decide)
    (by decide) (by decide) (by decide)
  have hmax : sampleRoom.total_rounds.getD 3 < nextRoundNumber sampleDBReveal 1
    := by decide
  exact ⟨hmax, (h.1 hmax).1, (h.1 hmax).2.2.1, (h.1 hmax).2.2.2⟩

/-! ## Claim C5 -/

/-- Mapping rounds with a `==` id guard equals a targeted map on the unique
row with that id. -/
theorem updRounds_eq_map {rounds : List Round} {rd : Round}
    (hnd : (rounds.map Round.id).Nodup) (hmem : rd ∈ rounds)
    (new : String) :
    rounds.map (fun r =>
        if r.id == rd.id then { r with prompt_text := new } else r)
      = rounds.map (fun r =>
        if r = rd then { rd with prompt_text := new } else r) := by
  apply List.map_congr_left
  intro a ha
  by_cases har : a = rd
  · rw [har, if_pos (by simp), if_pos rfl]
  · have hguard : ¬((a.id == rd.id) = true) := by
      intro hcon
      simp only [beq_iff_eq] at hcon
      exact har (round_eq_of_id hnd ha hmem hcon)
    rw [if_neg hguard, if_neg har]

/-- C5: a reroll call by an active non-host caller of a room (whatever the
round phase) is rejected with 403 and mutates nothing; a host call while the
latest round is in PROMPT phase rewrites only that round's `prompt_text`
(phase and round number unchanged, all other rows untouched); a host call
while the latest round is in any other phase is rejected with 400 and
mutates nothing. -/
theorem claim_C5_reroll_guard
    (db : DB) (jc pid newPrompt : String)
    (room : Room) (pl : Player) (rd : Round)
    (hjc : jsToUpper (jsTrim jc) = jc) (hjcne : jc ≠ "")
    (hpid : jsTrim pid = pid) (hpidne : pid ≠ "")
    (hroom : findRoom db jc = some room)
    (hnotEnded : room.status ≠ RoomStatus.ENDED)
    (hfind : findPlayer db pid room.id = some pl)
    (hact : pl.is_active = true)
    (hlr : latestRound db.rounds room.id = some rd)
    (hnd : (db.rounds.map Round.id).Nodup) :
    (pl.is_host = false →
      (rerollPOST db jc pid newPrompt).httpStatus = 403
      ∧ (rerollPOST db jc pid newPrompt).db = db)
    ∧ (pl.is_host = true → rd.phase = Phase.PROMPT →
      (rerollPOST db jc pid newPrompt).round
        = some { rd with prompt_text := newPrompt }
      ∧ (rerollPOST db jc pid newPrompt).db.rounds
        = db.rounds.map (fun r =>
            if r = rd then { rd with prompt_text := newPrompt } else r)
      ∧ ({ rd with prompt_text := newPrompt }).phase = rd.phase
      ∧ ({ rd with prompt_text := newPrompt }).round_number = rd.round_number
      ∧ (rerollPOST db jc pid newPrompt).httpStatus = 200)
    ∧ (pl.is_host = true → rd.phase ≠ Phase.PROMPT →
      (rerollPOST db jc pid newPrompt).httpStatus = 400
      ∧ (rerollPOST db jc pid newPrompt).db = db) := by
  have hmem : rd ∈ db.rounds := (latestRound_mem hlr).1
  refine ⟨?_, ?_, ?_⟩
  · intro hnothost
    constructor <;>
      simp [rerollPOST, hjc, hpid, hjcne, hpidne, hroom, hnotEnded, hfind,
        hact, hnothost]
  · intro hhost hph
    refine ⟨?_, ?_, rfl, rfl, ?_⟩
    · simp only [rerollPOST, hjc, hpid]
      rw [if_neg (by simp [hjcne, hpidne])]
      simp only [hroom]
      rw [if_neg hnotEnded]
      simp only [hfind, hact, hhost, Bool.not_true, Bool.false_eq_true,
        if_false, hlr]
      rw [if_neg (by simp [hph])]
      rw [find_round_by_id hnd hmem]
      rfl
    · simp only [rerollPOST, hjc, hpid]
      rw [if_neg (by simp [hjcne, hpidne])]
      simp only [hroom]
      rw [if_neg hnotEnded]
      simp only [hfind, hact, hhost, Bool.not_true, Bool.false_eq_true,
        if_false, hlr]
      rw [if_neg (by simp [hph])]
      exact updRounds_eq_map hnd hmem newPrompt
    · simp [rerollPOST, hjc, hpid, hjcne, hpidne, hroom, hnotEnded, hfind,
        hact, hhost, hlr, hph]
  · intro hhost hph
    constructor <;>
      simp [rerollPOST, hjc, hpid, hjcne, hpidne, hroom, hnotEnded, hfind,
        hact, hhost, hlr, hph]

/-- Witness for C5: the host rerolls during PROMPT; only the prompt text of
the latest round changes. -/
theorem claim_C5_witness :
    samplePlayer.is_host = true ∧ sampleRound.phase = Phase.PROMPT
    ∧ (rerollPOST sampleDB "ABCD" "P1" "second prompt").round
      = some { sampleRound with prompt_text := "second prompt" }
    ∧ (rerollPOST sampleDB "ABCD" "P1" "second prompt").db.rounds
      = [{ sampleRound with prompt_text := "second prompt" }] := by
  have h := claim_C5_reroll_guard sampleDB "ABCD" "P1" "second prompt"
    sampleRoom samplePlayer sampleRound
    (by decide) (by decide) (by decide) (by decide) (by decide) (by decide)
    (by decide) (by decide) (by decide) (by decide)
  have h2 := h.2.1 (by decide) (by decide)
  refine ⟨by decide, by decide, h2.1, ?_⟩
  rw [h2.2.1]
  decide

/-! ## Claim C6 -/

/-- C6: a rematch call by a non-host (or unknown) caller returns 403 and
mutates nothing; a host call deletes exactly the Vote, Submission, Round and
Score rows scoped to the room (rows of other rooms survive), resets the
room to LOBBY with `ended_at = null`, and resets `is_ready` of every player
of the room to false without deleting any player row. -/
theorem claim_C6_rematch
    (db : DB) (jc pid : String) (room : Room)
    (hjc : jsToUpper (jsTrim jc) = jc) (hjcne : jc ≠ "")
    (hpid : jsTrim pid = pid) (hpidne : pid ≠ "")
    (hroom : findRoom db jc = some room) :
    (callerIsHost db pid room.id = false →
      (rematchPOST db jc pid).httpStatus = 403
      ∧ (rematchPOST db jc pid).db = db)
    ∧ (callerIsHost db pid room.id = true →
      (rematchPOST db jc pid).db.votes
        = db.votes.filter (fun v => !(v.room_id == room.id))
      ∧ (rematchPOST db jc pid).db.submissions
        = db.submissions.filter (fun s => !(s.room_id == room.id))
      ∧ (rematchPOST db jc pid).db.rounds
        = db.rounds.filter (fun r => !(r.room_id == room.id))
      ∧ (rematchPOST db jc pid).db.scores
        = db.scores.filter (fun s => !(s.room_id == room.id))
      ∧ (∀ r ∈ (rematchPOST db jc pid).db.rounds, r.room_id ≠ room.id)
      ∧ (∀ v ∈ (rematchPOST db jc pid).db.votes, v.room_id ≠ room.id)
      ∧ (rematchPOST db jc pid).db.players = resetReady db.players room.id
      ∧ (rematchPOST db jc pid).db.players.length = db.players.length
      ∧ (∀ q ∈ db.players, q.room_id = room.id →
          { q with is_ready := false } ∈ (rematchPOST db jc pid).db.players)
      ∧ (∀ q ∈ db.players, q.room_id ≠ room.id →
          q ∈ (rematchPOST db jc pid).db.players)
      ∧ { room with status := RoomStatus.LOBBY, ended_at := none }
          ∈ (rematchPOST db jc pid).db.rooms
      ∧ (rematchPOST db jc pid).db.rooms.length = db.rooms.length) := by
  have hroomMem : room ∈ db.rooms := by
    unfold findRoom at hroom
    exact List.mem_of_find?_eq_some hroom
  constructor
  · intro hnothost
    constructor <;>
      simp [rematchPOST, hjc, hpid, hjcne, hpidne, hroom, hnothost]
  · intro hhost
    have hred : (rematchPOST db jc pid).db
        = { rooms := db.rooms.map (fun rm : Room =>
              if rm.id == room.id then
                { rm with status := RoomStatus.LOBBY, ended_at := none }
              else rm),
            players := resetReady db.players room.id,
            rounds := db.rounds.filter (fun r => !(r.room_id == room.id)),
            submissions :=
              db.submissions.filter (fun s => !(s.room_id == room.id)),
            votes := db.votes.filter (fun v => !(v.room_id == room.id)),
            scores := db.scores.filter (fun s => !(s.room_id == room.id)) } := by
      simp [rematchPOST, hjc, hpid, hjcne, hpidne, hroom, hhost]
    rw [hred]
    refine ⟨rfl, rfl, rfl, rfl, ?_, ?_, rfl, ?_, ?_, ?_, ?_, ?_⟩
    · intro r hr
      have h2 := (List.mem_filter.mp hr).2
      simpa using h2
    · intro v hv
      have h2 := (List.mem_filter.mp hv).2
      simpa using h2
    · simp [resetReady]
    · intro q hq hqr
      refine List.mem_map.mpr ⟨q, hq, ?_⟩
      rw [if_pos (by simp [hqr])]
    · intro q hq hqr
      refine List.mem_map.mpr ⟨q, hq, ?_⟩
      rw [if_neg (by simp [hqr])]
    · refine List.mem_map.mpr ⟨room, hroomMem, ?_⟩
      rw [if_pos (by simp)]
    · simp

/-- Witness for C6 on a two-room store: the host of room 1 rematches; only
room 1's scoped rows are deleted, room 2's rows survive. -/
theorem claim_C6_witness :
    callerIsHost sampleDBMixed "P1" 1 = true
    ∧ (rematchPOST sampleDBMixed "ABCD" "P1").db.votes = [{ id := 2, room_id := 2 }]
    ∧ (rematchPOST sampleDBMixed "ABCD" "P1").db.rounds = [otherRound]
    ∧ (rematchPOST sampleDBMixed "ABCD" "P1").db.players.length = 2
    ∧ { sampleRoom with status := RoomStatus.LOBBY, ended_at := none }
        ∈ (rematchPOST sampleDBMixed "ABCD" "P1").db.rooms := by
  have h := claim_C6_rematch sampleDBMixed "ABCD" "P1" sampleRoom
    (by decide) (by decide) (by decide) (by decide) (by decide)
  have h2 := h.2 (by decide)
  refine ⟨by decide, ?_, ?_, ?_, h2.2.2.2.2.2.2.2.2.2.2.1⟩
  · rw [h2.1]; decide
  · rw [h2.2.2.1]; decide
  · rw [h2.2.2.2.2.2.2.2.1]; decide

/-! ## Claims C7 and C10 -/

/-- C7: when every generated join code collides with an existing room, the
create-room handler makes exactly 5 attempts — each with a fresh draw from
the code generator (`codes 0` through `codes 4`, in order) — then fails
with 500 leaving the store unchanged. -/
theorem claim_C7_create_collision_retries
    (db : DB) (name : String) (codes : Nat → String)
    (freshRoomId : Nat) (freshPlayerId : String) (hostInsertFails : Bool)
    (hname : jsTrim name ≠ "")
    (hcoll : ∀ i < 5, hasJoinCode db (codes i) = true) :
    (createRoomPOST db name codes freshRoomId freshPlayerId
        hostInsertFails).httpStatus = 500
    ∧ (createRoomPOST db name codes freshRoomId freshPlayerId
        hostInsertFails).db = db
    ∧ (createRoomPOST db name codes freshRoomId freshPlayerId
        hostInsertFails).tried
      = [codes 0, codes 1, codes 2, codes 3, codes 4] := by
  unfold createRoomPOST
  rw [if_neg hname]
  simp [createLoop, hcoll 0 (by norm_num), hcoll 1 (by norm_num),
    hcoll 2 (by norm_num), hcoll 3 (by norm_num), hcoll 4 (by norm_num)]

/-- Witness for C7: every draw collides with the existing room's code
"ABCD"; the handler tries 5 fresh draws and fails with 500. -/
theorem claim_C7_witness :
    (createRoomPOST sampleDB "Bob" (fun _ => "ABCD") 5 "P5" false).httpStatus
      = 500
    ∧ (createRoomPOST sampleDB "Bob" (fun _ => "ABCD") 5 "P5" false).db
      = sampleDB
    ∧ (createRoomPOST sampleDB "Bob" (fun _ => "ABCD") 5 "P5" false).tried
      = ["ABCD", "ABCD", "ABCD", "ABCD", "ABCD"] := by
  have h := claim_C7_create_collision_retries sampleDB "Bob" (fun _ => "ABCD")
    5 "P5" false (by decide)
    (by intro i _; show hasJoinCode sampleDB "ABCD" = true; decide)
  exact ⟨h.1, h.2.1, h.2.2⟩

/-- C10: when the room insert succeeds (no code collision) but the host
player insert fails, the handler answers 500 while the freshly inserted
room row stays in the store with no player attached — the room is not
rolled back. -/
theorem claim_C10_create_not_atomic
    (db : DB) (name : String) (codes : Nat → String)
    (freshRoomId : Nat) (freshPlayerId : String)
    (hname : jsTrim name ≠ "")
    (hfree : hasJoinCode db (codes 0) = false) :
    (createRoomPOST db name codes freshRoomId freshPlayerId true).httpStatus
      = 500
    ∧ (createRoomPOST db name codes freshRoomId freshPlayerId true).db.rooms
      = db.rooms ++ [{ id := freshRoomId, join_code := codes 0,
                       status := RoomStatus.LOBBY, max_players := 8,
                       is_family_friendly := false, total_rounds := none,
                       round_seconds := none, ended_at := none }]
    ∧ { id := freshRoomId, join_code := codes 0,
        status := RoomStatus.LOBBY, max_players := 8,
        is_family_friendly := false, total_rounds := none,
        round_seconds := none, ended_at := none }
      ∈ (createRoomPOST db name codes freshRoomId freshPlayerId true).db.rooms
    ∧ (createRoomPOST db name codes freshRoomId freshPlayerId true).db.players
      = db.players := by
  unfold createRoomPOST
  rw [if_neg hname]
  refine ⟨?_, ?_, ?_, ?_⟩
  · simp [createLoop, hfree]
  · simp [createLoop, hfree]
  · simp only [createLoop, hfree, Bool.false_eq_true, if_false, if_true]
    exact List.mem_append_right _ (List.mem_singleton_self _)
  · simp [createLoop, hfree]

/-- Witness for C10: the first draw "FRSH" is free, the host insert fails;
the room row with code "FRSH" survives with no player added. -/
theorem claim_C10_witness :
    (createRoomPOST sampleDB "Bob" (fun _ => "FRSH") 5 "P5" true).httpStatus
      = 500
    ∧ { id := 5, join_code := "FRSH", status := RoomStatus.LOBBY,
        max_players := 8, is_family_friendly := false, total_rounds := none,
        round_seconds := none, ended_at := none }
      ∈ (createRoomPOST sampleDB "Bob" (fun _ => "FRSH") 5 "P5" true).db.rooms
    ∧ (createRoomPOST sampleDB "Bob" (fun _ => "FRSH") 5 "P5" true).db.players
      = sampleDB.players := by
  have h := claim_C10_create_not_atomic sampleDB "Bob" (fun _ => "FRSH")
    5 "P5" (by decide) (by decide)
  exact ⟨h.1, h.2.2.1, h.2.2.2⟩

end Game
